import Mathlib

/-!
Shallow embedding of the git-sync reconciliation agent, covering the
content identity cache (internal/subrepo/cache.go), the size classifier
(ClassifyFilesBySize and the inline classifier of
processSpecialRepoFastAndSafe), the index mutator (batchUpdateIndex),
the batch executor (executeGitCommandWithRetry and
processFilesBatchWithSize), batchRemoveFiles and the divergence
classifier / merge engine (SmartThreeWayMerge, SafeRollback).

External effects (git subprocesses, the filesystem, the clock, sleeping)
are modelled as explicit environments: an environment field records the
outcome the external world would produce for each call, and the embedded
function returns both its Go return value and the ordered list of calls
it issued.  File sizes and durations are `Int`/`Nat`; per-call results
are inductive types mirroring the Go branch conditions (success, stderr
containing "index.lock", any other failure).
-/

namespace GitSync

/-- Substring test on the underlying character lists; mirrors Go
`strings.Contains(s, pat)`. -/
def hasSubstr (s pat : List Char) : Bool :=
  match s with
  | [] => pat.isEmpty
  | _ :: rest => pat.isPrefixOf s || hasSubstr rest pat

/-- Go `strings.Contains(s, pat)`. -/
def strContains (s pat : String) : Bool :=
  hasSubstr s.toList pat.toList

/-- `config.LockFilePatterns` from internal/config/config.go. -/
def LockFilePatterns : List String :=
  ["package-lock.json", "yarn.lock", "pnpm-lock.yaml", "Pipfile.lock",
   "composer.lock", "Gemfile.lock", "go.sum", "Cargo.lock"]

/-! ## Content identity cache (internal/subrepo/cache.go)

The Go `HashCache` is a mutex-guarded `map[string]HashCacheEntry`; here the
map is a function from path to an optional entry, and `Set`/`Get` are the
pure counterparts of the locked map operations.  `time.Time` instants
(compared with `Equal`) are modelled as `Int`. -/

structure HashCacheEntry where
  Hash : String
  ModTime : Int
  Size : Int
  deriving DecidableEq

def HashCache : Type := String → Option HashCacheEntry

/-- An empty cache, as built by `NewHashCache`. -/
def HashCache.empty : HashCache := fun _ => none

/-- `HashCache.Set`: overwrites any prior entry for `path`. -/
def HashCache.Set (hc : HashCache) (path hash : String) (modTime size : Int) :
    HashCache :=
  fun p => if p = path then some ⟨hash, modTime, size⟩ else hc p

/-- `HashCache.Get`: the hash is returned only when the stored modTime and
size both equal the queried ones. -/
def HashCache.Get (hc : HashCache) (path : String) (modTime size : Int) :
    String × Bool :=
  match hc path with
  | none => ("", false)
  | some entry =>
      if entry.ModTime = modTime ∧ entry.Size = size then (entry.Hash, true)
      else ("", false)

/-! ## Size classifier

`ClassifyFilesBySize` (unnamed batch-processor file) hard-codes the 5MB and
100MB limits; the inline classifier of `processSpecialRepoFastAndSafe`
(internal/subrepo/subrepo.go) uses the configured thresholds.  `os.Stat` is
an environment `stat : String → Option Int` giving the size, `none` when
the stat call fails.  The Go loops append each file to the end of the
chosen tier list in input order; the structural recursion below conses the
head onto the recursive result, producing the same lists. -/

def smallLimit : Int := 5 * 1024 * 1024

def mediumLimit : Int := 100 * 1024 * 1024

structure FileClassification where
  Small : List String
  Medium : List String
  Large : List String
  deriving DecidableEq

/-- `ClassifyFilesBySize`: a stat failure is treated as a small file (the
source comment: "If cannot stat, treat as small file"). -/
def ClassifyFilesBySize (stat : String → Option Int) :
    List String → FileClassification
  | [] => ⟨[], [], []⟩
  | f :: rest =>
    let c := ClassifyFilesBySize stat rest
    match stat f with
    | some sz =>
        if sz < smallLimit then ⟨f :: c.Small, c.Medium, c.Large⟩
        else if sz < mediumLimit then ⟨c.Small, f :: c.Medium, c.Large⟩
        else ⟨c.Small, c.Medium, f :: c.Large⟩
    | none => ⟨f :: c.Small, c.Medium, c.Large⟩

/-- Inline classifier of `processSpecialRepoFastAndSafe`: a stat failure
skips the file entirely (the `if err == nil` guard). -/
def classifySubrepoFiles (stat : String → Option Int) (smallT mediumT : Int) :
    List String → List String × List String × List String
  | [] => ([], [], [])
  | f :: rest =>
    let c := classifySubrepoFiles stat smallT mediumT rest
    match stat f with
    | some sz =>
        if sz < smallT then (f :: c.1, c.2.1, c.2.2)
        else if sz < mediumT then (c.1, f :: c.2.1, c.2.2)
        else (c.1, c.2.1, f :: c.2.2)
    | none => c

/-! ## Batch executor (GitBatchProcessor, unnamed batch-processor file)

`executeGitCommandWithRetry` runs `git add`/`git rm` on one batch, retrying
with delay `baseDelay * 2^i` only when stderr contains "index.lock".  The
environment `res : Nat → ExecResult` gives the outcome of the i-th run
(0-based, matching the Go loop index).  The model returns the Go boolean
and the ordered list of backoff delays slept. -/

inductive ExecResult where
  | ok
  | lockErr
  | otherErr
  deriving DecidableEq

/-- Retry loop body of `executeGitCommandWithRetry`: `i` is the Go loop
index, `remaining` the iterations left (`maxRetries - i`). -/
def egcLoop (res : Nat → ExecResult) (baseDelay : Nat) :
    Nat → Nat → Bool × List Nat
  | _, 0 => (false, [])
  | i, remaining + 1 =>
    match res i with
    | .ok => (true, [])
    | .lockErr =>
        let r := egcLoop res baseDelay (i + 1) remaining
        (r.1, baseDelay * 2 ^ i :: r.2)
    | .otherErr => (false, [])

/-- `executeGitCommandWithRetry`: unknown operations fail without running
anything; zero retry parameters fall back to the documented defaults
(3 attempts, one base-delay unit). -/
def executeGitCommandWithRetry (res : Nat → ExecResult) (op : String)
    (maxRetries baseDelay : Nat) : Bool × List Nat :=
  if op = "add" ∨ op = "rm" then
    let mr := if maxRetries = 0 then 3 else maxRetries
    let bd := if baseDelay = 0 then 1 else baseDelay
    egcLoop res bd 0 mr
  else (false, [])

/-- `splitIntoBatches` body: `fuel` bounds the iteration count (the Go
`for i := 0; i < len(files); i += batchSize` loop; every call site passes a
positive batch size, for which `files.length` steps always suffice). -/
def splitGo (bs : Nat) : Nat → List String → List (List String)
  | 0, _ => []
  | _, [] => []
  | fuel + 1, f :: rest =>
      (f :: rest).take bs :: splitGo bs fuel ((f :: rest).drop bs)

/-- `splitIntoBatches`. -/
def splitIntoBatches (files : List String) (bs : Nat) : List (List String) :=
  splitGo bs files.length files

/-- `processFilesBatchWithSize` loop: runs every batch in order through
`executeGitCommandWithRetry`; returns (processed file count, batches
attempted).  `env b i` is the outcome of attempt `i` on batch `b`. -/
def processBatches (env : Nat → Nat → ExecResult) (op : String)
    (maxRetries baseDelay : Nat) : Nat → List (List String) → Nat × Nat
  | _, [] => (0, 0)
  | b, batch :: rest =>
    let ok := (executeGitCommandWithRetry (env b) op maxRetries baseDelay).1
    let r := processBatches env op maxRetries baseDelay (b + 1) rest
    (if ok then batch.length + r.1 else r.1, r.2 + 1)

/-- `processFilesBatchWithSize`. -/
def processFilesBatchWithSize (env : Nat → Nat → ExecResult) (op : String)
    (files : List String) (batchSize maxRetries baseDelay : Nat) : Nat × Nat :=
  processBatches env op maxRetries baseDelay 0 (splitIntoBatches files batchSize)

/-! ## Index mutator (`batchUpdateIndex`, internal/subrepo/subrepo.go)

Before each attempt the loop stats `.git/index.lock`; a marker older than
`LockFileMaxAge` is removed and the attempt proceeds, a younger one makes
the attempt sleep and `continue` — which advances the counted loop
variable.  The bulk `git update-index --index-info` call retries on an
"index.lock" stderr with doubling delay.  The environment gives, per Go
attempt number, the observed lock state (age as a duration, `Int` like
`time.Since`) and the bulk-call outcome. -/

inductive LockState where
  | absent
  | present (age : Int)
  deriving DecidableEq

structure IndexEnv where
  lock : Nat → LockState
  cmd : Nat → ExecResult

inductive IndexEvent where
  | removeLock (attempt : Nat)
  | bulkCall (attempt : Nat)
  | sleep (d : Nat)
  deriving DecidableEq

/-- Loop body of `batchUpdateIndex`: `attempt` is the Go 1-based counter,
`remaining` the iterations left (`maxRetries - attempt + 1`), `delay` the
current `retryDelay`.  Returns the Go error (`none` = nil) and the ordered
list of externally visible events. -/
def buiLoop (env : IndexEnv) (maxAge : Int) :
    Nat → Nat → Nat → Option String × List IndexEvent
  | _, 0, _ => (some "git update-index failed after retries", [])
  | attempt, remaining + 1, delay =>
    let lockStep : List IndexEvent × Bool :=
      match env.lock attempt with
      | .absent => ([], true)
      | .present age =>
          if maxAge < age then ([.removeLock attempt], true)
          else ([.sleep delay], false)
    if lockStep.2 then
      match env.cmd attempt with
      | .ok => (none, lockStep.1 ++ [.bulkCall attempt])
      | .lockErr =>
          if 0 < remaining then
            let r := buiLoop env maxAge (attempt + 1) remaining (delay * 2)
            (r.1, lockStep.1 ++ [.bulkCall attempt, .sleep delay] ++ r.2)
          else
            (some "git update-index --index-info failed",
             lockStep.1 ++ [.bulkCall attempt])
      | .otherErr =>
          (some "git update-index --index-info failed",
           lockStep.1 ++ [.bulkCall attempt])
    else
      let r := buiLoop env maxAge (attempt + 1) remaining delay
      (r.1, lockStep.1 ++ r.2)

/-- `batchUpdateIndex` retry loop entered with the configured
`IndexUpdateMaxRetries` and `IndexUpdateRetryDelay`. -/
def batchUpdateIndex (env : IndexEnv) (maxRetries : Nat) (maxAge : Int)
    (retryDelay : Nat) : Option String × List IndexEvent :=
  buiLoop env maxAge 1 maxRetries retryDelay

/-! ## `batchRemoveFiles` (internal/subrepo/subrepo.go)

Removes files in batches of the configured size via `git rm --cached`;
a failed batch only adds its files to the failure list.  `env b` is the
success of batch `b`'s subprocess.  The function's only return statements
are `return nil`. -/

/-- Per-batch loop of `batchRemoveFiles`: (successCount, failedFiles). -/
def removeBatchesLoop (env : Nat → Bool) : Nat → List (List String) →
    Nat × List String
  | _, [] => (0, [])
  | b, batch :: rest =>
    let r := removeBatchesLoop env (b + 1) rest
    if env b then (batch.length + r.1, r.2) else (r.1, batch ++ r.2)

/-- `batchRemoveFiles`: Go return value (`none` = nil) plus the internal
success count and failed-file list, which are only logged. -/
def batchRemoveFiles (env : Nat → Bool) (files : List String) (bs : Nat) :
    Option String × Nat × List String :=
  if files.isEmpty then (none, 0, [])
  else (none, removeBatchesLoop env 0 (splitIntoBatches files bs))

/-! ## Divergence classifier and merge engine (internal/merge)

`SmartThreeWayMerge` resolves `local`, `origin/branch` and their merge
base, then walks the four-way if-chain.  The environment records the three
revisions (with `revOk = false` modelling a failed
`GetRevision`/`GetMergeBase`, which returns early), the outcome of every
git call, the two `GetConflictedFiles` snapshots, and the configured
`MergeFailureStrategy` string.  The result is the Go error (`none` = nil)
paired with the ordered list of git actions issued. -/

inductive GitAction where
  | commitStaged
  | pull
  | push
  | createBranch
  | mergeAttempt
  | checkoutTheirs (f : String)
  | add (f : String)
  | commitMerge
  | deleteBranch
  | mergeAbort
  | resetSoftHead
  | resetHardBackup
  | resetHardHead
  | forcePush
  deriving DecidableEq

structure MergeEnv where
  hasStaged : Bool
  revOk : Bool
  localRev : String
  remoteRev : String
  baseRev : String
  pullOk : Bool
  pushOk : Bool
  createBranchOk : Bool
  mergeOk : Bool
  conflictFilesErr : Bool
  conflictFiles : List String
  checkoutTheirsOk : String → Bool
  remainingErr : Bool
  remainingConflicts : List String
  commitMergeOk : Bool
  mergeAbortOk : Bool
  resetHardBackupOk : Bool
  resetHardHeadOk : Bool
  strategy : String
  forcePushOk : Bool

/-- Spec-side `BranchState` tagged union (spec §3, §4.6). -/
inductive BranchState where
  | same
  | behind
  | ahead
  | diverged
  deriving DecidableEq

/-- The spec's state machine over (local, remote, base), first match
wins. -/
def classifyBranch (l r b : String) : BranchState :=
  if l = r then .same
  else if l = b then .behind
  else if r = b then .ahead
  else .diverged

/-- Lock-file test of the conflict loop: Go iterates
`config.LockFilePatterns` and breaks on the first `strings.Contains`
hit. -/
def isLockFile (f : String) : Bool :=
  LockFilePatterns.any (fun pat => strContains f pat)

/-- Conflict-loop body for one conflicted file: a lock file gets
`git checkout --theirs` and, if that succeeds, `git add`; failures only
`continue`. -/
def resolveOne (env : MergeEnv) (f : String) : List GitAction :=
  if isLockFile f then
    if env.checkoutTheirsOk f then [.checkoutTheirs f, .add f]
    else [.checkoutTheirs f]
  else []

/-- Tail of `SafeRollback` (internal/merge/enhanced.go): after a completed
rollback, strategy "force-push" force-pushes (its failure is the only
remaining error source), anything else keeps the backup branch and takes
no remote action. -/
def rollbackStrategy (env : MergeEnv) (acc : List GitAction) :
    Option String × List GitAction :=
  if env.strategy = "force-push" then
    if env.forcePushOk then (none, acc ++ [.forcePush])
    else (some "force push failed", acc ++ [.forcePush])
  else (none, acc)

/-- `SafeRollback`: merge-abort; on its failure a soft reset to HEAD
(result ignored); then a hard reset to the backup branch; on its failure a
hard reset to HEAD, whose failure is fatal. -/
def SafeRollback (env : MergeEnv) : Option String × List GitAction :=
  let a1 : List GitAction :=
    if env.mergeAbortOk then [.mergeAbort] else [.mergeAbort, .resetSoftHead]
  if env.resetHardBackupOk then
    rollbackStrategy env (a1 ++ [.resetHardBackup])
  else if env.resetHardHeadOk then
    rollbackStrategy env (a1 ++ [.resetHardBackup, .resetHardHead])
  else
    (some "rollback failed, repository may be in inconsistent state",
     a1 ++ [.resetHardBackup, .resetHardHead])

/-- Conflict path of `SmartThreeWayMerge` after `MergeWithLog` failed:
list conflicts, auto-resolve lock files, re-list, then either finish the
merge or roll back and report. -/
def handleConflicts (env : MergeEnv) (acc : List GitAction) :
    Option String × List GitAction :=
  if env.conflictFilesErr then (some "get conflicted files failed", acc)
  else
    let acc2 := acc ++ (env.conflictFiles.map (resolveOne env)).flatten
    if env.remainingErr then (some "check remaining conflicts failed", acc2)
    else if env.remainingConflicts.isEmpty then
      if env.commitMergeOk then
        if env.pushOk then (none, acc2 ++ [.commitMerge, .push, .deleteBranch])
        else (some "push failed", acc2 ++ [.commitMerge, .push])
      else (some "commit failed", acc2 ++ [.commitMerge])
    else
      match SafeRollback env with
      | (some e, racts) => (some ("rollback failed: " ++ e), acc2 ++ racts)
      | (none, racts) =>
          (some "merge conflicts require manual resolution", acc2 ++ racts)

/-- Diverged (case 4) path of `SmartThreeWayMerge`: backup branch, merge
attempt, then push-and-cleanup or conflict handling.  A push failure after
a successful merge returns before any rollback or branch deletion. -/
def divergedMerge (env : MergeEnv) (acc : List GitAction) :
    Option String × List GitAction :=
  if env.createBranchOk then
    let acc1 := acc ++ [GitAction.createBranch, GitAction.mergeAttempt]
    if env.mergeOk then
      if env.pushOk then (none, acc1 ++ [.push, .deleteBranch])
      else (some "push failed", acc1 ++ [.push])
    else handleConflicts env acc1
  else (some "create branch failed", acc ++ [.createBranch])

/-- `SmartThreeWayMerge` (internal/merge/merge.go): commit staged
leftovers, resolve the three revisions, then the four-way if-chain in
source order. -/
def SmartThreeWayMerge (env : MergeEnv) : Option String × List GitAction :=
  let acc : List GitAction := if env.hasStaged then [.commitStaged] else []
  if env.revOk then
    if env.localRev = env.remoteRev then (none, acc)
    else if env.localRev = env.baseRev then
      if env.pullOk then (none, acc ++ [.pull])
      else (some "pull failed", acc ++ [.pull])
    else if env.remoteRev = env.baseRev then
      if env.pushOk then (none, acc ++ [.push])
      else (some "push failed", acc ++ [.push])
    else divergedMerge env acc
  else (some "rev lookup failed", acc)

/-! ## Theorems -/

/-- Claim C4: after `Set(path, h, m, s)`, `Get(path, m, s)` returns
`(h, true)`, and `Get(path, m', s')` with any differing modTime or size
returns found = false. -/
theorem hashCache_set_get (hc : HashCache) (path h : String) (m s : Int) :
    (HashCache.Set hc path h m s).Get path m s = (h, true)
    ∧ ∀ m' s', m' ≠ m ∨ s' ≠ s →
        ((HashCache.Set hc path h m s).Get path m' s').2 = false := by
  have hset : HashCache.Set hc path h m s path = some ⟨h, m, s⟩ := by
    simp [HashCache.Set]
  constructor
  · unfold HashCache.Get
    rw [hset]
    simp
  · intro m' s' hne
    unfold HashCache.Get
    rw [hset]
    by_cases hcond : m = m' ∧ s = s'
    · rcases hne with hm | hs
      · exact absurd hcond.1.symm hm
      · exact absurd hcond.2.symm hs
    · simp [hcond]

/-- Witness for C4 at a concrete cache state and query. -/
theorem hashCache_set_get_witness :
    (HashCache.Set HashCache.empty "a/b.txt" "h1" 10 20).Get "a/b.txt" 10 20
      = ("h1", true)
    ∧ ((HashCache.Set HashCache.empty "a/b.txt" "h1" 10 20).Get "a/b.txt" 10 21).2
      = false := by
  refine ⟨(hashCache_set_get HashCache.empty "a/b.txt" "h1" 10 20).1, ?_⟩
  exact (hashCache_set_get HashCache.empty "a/b.txt" "h1" 10 20).2 10 21
    (Or.inr (by decide))

/-- Claim C10: `batchRemoveFiles` returns nil for every input, even when
underlying bulk removal calls fail; per-batch failures are only counted
internally. -/
theorem batchRemoveFiles_returns_nil (env : Nat → Bool) (files : List String)
    (bs : Nat) : (batchRemoveFiles env files bs).1 = none := by
  unfold batchRemoveFiles
  split <;> rfl

/-- Membership in the medium tier of `ClassifyFilesBySize` forces a
successful stat with size in [smallLimit, mediumLimit). -/
lemma mem_classify_medium {stat : String → Option Int} {files : List String}
    {f : String} (h : f ∈ (ClassifyFilesBySize stat files).Medium) :
    ∃ sz, stat f = some sz ∧ ¬ sz < smallLimit ∧ sz < mediumLimit := by
  induction files with
  | nil => simp [ClassifyFilesBySize] at h
  | cons g rest ih =>
    rcases hg : stat g with _ | sz <;>
        simp only [ClassifyFilesBySize, hg] at h
    · exact ih h
    · split_ifs at h with h1 h2
      · exact ih h
      · rcases List.mem_cons.mp h with rfl | hf
        · exact ⟨sz, hg, h1, h2⟩
        · exact ih hf
      · exact ih h

/-- Membership in the large tier of `ClassifyFilesBySize` forces a
successful stat with size at least mediumLimit. -/
lemma mem_classify_large {stat : String → Option Int} {files : List String}
    {f : String} (h : f ∈ (ClassifyFilesBySize stat files).Large) :
    ∃ sz, stat f = some sz ∧ ¬ sz < mediumLimit := by
  induction files with
  | nil => simp [ClassifyFilesBySize] at h
  | cons g rest ih =>
    rcases hg : stat g with _ | sz <;>
        simp only [ClassifyFilesBySize, hg] at h
    · exact ih h
    · split_ifs at h with h1 h2
      · exact ih h
      · exact ih h
      · rcases List.mem_cons.mp h with rfl | hf
        · exact ⟨sz, hg, h2⟩
        · exact ih hf

/-- A listed file whose stat yields a size in [smallLimit, mediumLimit)
lands in the medium tier of `ClassifyFilesBySize`. -/
lemma classify_mem_medium_of {stat : String → Option Int} {files : List String}
    {f : String} {sz : Int} (hf : f ∈ files) (hs : stat f = some sz)
    (h1 : ¬ sz < smallLimit) (h2 : sz < mediumLimit) :
    f ∈ (ClassifyFilesBySize stat files).Medium := by
  induction files with
  | nil => cases hf
  | cons g rest ih =>
    rcases List.mem_cons.mp hf with rfl | hf
    · simp only [ClassifyFilesBySize, hs, if_neg h1, if_pos h2]
      exact List.mem_cons_self f _
    · rcases hg : stat g with _ | szg <;>
          simp only [ClassifyFilesBySize, hg]
      · exact ih hf
      · split_ifs with hh1 hh2
        · exact ih hf
        · exact List.mem_cons_of_mem g (ih hf)
        · exact ih hf

/-- A listed file whose stat yields a size at least mediumLimit lands in
the large tier of `ClassifyFilesBySize`. -/
lemma classify_mem_large_of {stat : String → Option Int} {files : List String}
    {f : String} {sz : Int} (hf : f ∈ files) (hs : stat f = some sz)
    (h2 : ¬ sz < mediumLimit) :
    f ∈ (ClassifyFilesBySize stat files).Large := by
  have h1 : ¬ sz < smallLimit := by
    simp only [smallLimit, mediumLimit] at h2 ⊢
    omega
  induction files with
  | nil => cases hf
  | cons g rest ih =>
    rcases List.mem_cons.mp hf with rfl | hf
    · simp only [ClassifyFilesBySize, hs, if_neg h1, if_neg h2]
      exact List.mem_cons_self f _
    · rcases hg : stat g with _ | szg <;>
          simp only [ClassifyFilesBySize, hg]
      · exact ih hf
      · split_ifs with hh1 hh2
        · exact ih hf
        · exact ih hf
        · exact List.mem_cons_of_mem g (ih hf)

/-- A listed file whose stat fails lands in the small tier of
`ClassifyFilesBySize`. -/
lemma classify_mem_small_of_none {stat : String → Option Int}
    {files : List String} {f : String} (hf : f ∈ files) (hs : stat f = none) :
    f ∈ (ClassifyFilesBySize stat files).Small := by
  induction files with
  | nil => cases hf
  | cons g rest ih =>
    rcases List.mem_cons.mp hf with rfl | hf
    · simp only [ClassifyFilesBySize, hs]
      exact List.mem_cons_self f _
    · rcases hg : stat g with _ | szg <;>
          simp only [ClassifyFilesBySize, hg]
      · exact List.mem_cons_of_mem g (ih hf)
      · split_ifs with hh1 hh2
        · exact List.mem_cons_of_mem g (ih hf)
        · exact ih hf
        · exact ih hf

/-- The three tiers of `ClassifyFilesBySize` together are a permutation of
the input list: a total partition. -/
lemma classify_perm (stat : String → Option Int) (files : List String) :
    List.Perm
      ((ClassifyFilesBySize stat files).Small
        ++ (ClassifyFilesBySize stat files).Medium
        ++ (ClassifyFilesBySize stat files).Large)
      files := by
  induction files with
  | nil => simp [ClassifyFilesBySize]
  | cons g rest ih =>
    rcases hg : stat g with _ | sz <;>
        simp only [ClassifyFilesBySize, hg]
    · exact List.Perm.cons g ih
    · split_ifs with h1 h2
      · exact List.Perm.cons g ih
      · refine List.Perm.trans ?_ (List.Perm.cons g ih)
        simp only [List.append_assoc, List.cons_append]
        exact List.perm_middle
      · refine List.Perm.trans ?_ (List.Perm.cons g ih)
        simp only [List.append_assoc]
        refine List.Perm.trans (List.Perm.append_left _ List.perm_middle) ?_
        exact List.perm_middle

/-- Any file placed in a tier by the inline subrepo classifier has a
successful stat. -/
lemma subrepo_mem_stat {stat : String → Option Int} {sT mT : Int}
    {files : List String} {f : String}
    (h : f ∈ (classifySubrepoFiles stat sT mT files).1
      ∨ f ∈ (classifySubrepoFiles stat sT mT files).2.1
      ∨ f ∈ (classifySubrepoFiles stat sT mT files).2.2) :
    ∃ sz, stat f = some sz := by
  induction files with
  | nil => simp [classifySubrepoFiles] at h
  | cons g rest ih =>
    rcases hg : stat g with _ | sz <;>
        simp only [classifySubrepoFiles, hg] at h
    · exact ih h
    · split_ifs at h with h1 h2
      · rcases h with h | h | h
        · rcases List.mem_cons.mp h with rfl | hf
          · exact ⟨sz, hg⟩
          · exact ih (Or.inl hf)
        · exact ih (Or.inr (Or.inl h))
        · exact ih (Or.inr (Or.inr h))
      · rcases h with h | h | h
        · exact ih (Or.inl h)
        · rcases List.mem_cons.mp h with rfl | hf
          · exact ⟨sz, hg⟩
          · exact ih (Or.inr (Or.inl hf))
        · exact ih (Or.inr (Or.inr h))
      · rcases h with h | h | h
        · exact ih (Or.inl h)
        · exact ih (Or.inr (Or.inl h))
        · rcases List.mem_cons.mp h with rfl | hf
          · exact ⟨sz, hg⟩
          · exact ih (Or.inr (Or.inr hf))

/-- A listed file whose stat yields a size in [sT, mT) lands in the medium
list of the inline subrepo classifier. -/
lemma subrepo_mem_medium_of {stat : String → Option Int} {sT mT : Int}
    {files : List String} {f : String} {sz : Int} (hf : f ∈ files)
    (hs : stat f = some sz) (h1 : ¬ sz < sT) (h2 : sz < mT) :
    f ∈ (classifySubrepoFiles stat sT mT files).2.1 := by
  induction files with
  | nil => cases hf
  | cons g rest ih =>
    rcases List.mem_cons.mp hf with rfl | hf
    · simp only [classifySubrepoFiles, hs, if_neg h1, if_pos h2]
      exact List.mem_cons_self f _
    · rcases hg : stat g with _ | szg <;>
          simp only [classifySubrepoFiles, hg]
      · exact ih hf
      · split_ifs with hh1 hh2
        · exact ih hf
        · exact List.mem_cons_of_mem g (ih hf)
        · exact ih hf

/-- Membership in the small tier of `ClassifyFilesBySize` forces either a
failed stat or a size below smallLimit. -/
lemma mem_classify_small {stat : String → Option Int} {files : List String}
    {f : String} (h : f ∈ (ClassifyFilesBySize stat files).Small) :
    stat f = none ∨ ∃ sz, stat f = some sz ∧ sz < smallLimit := by
  induction files with
  | nil => simp [ClassifyFilesBySize] at h
  | cons g rest ih =>
    rcases hg : stat g with _ | sz <;>
        simp only [ClassifyFilesBySize, hg] at h
    · rcases List.mem_cons.mp h with rfl | hf
      · exact Or.inl hg
      · exact ih hf
    · split_ifs at h with h1 h2
      · rcases List.mem_cons.mp h with rfl | hf
        · exact Or.inr ⟨sz, hg, h1⟩
        · exact ih hf
      · exact ih h
      · exact ih h

/-- Claim C3, counterexample: a file whose size is exactly the
small/medium threshold is assigned to the medium tier, not to the lower
(small) tier as the claim states. -/
theorem classifier_threshold_counterexample :
    "a.bin" ∉ (ClassifyFilesBySize (fun _ => some smallLimit) ["a.bin"]).Small
    ∧ "a.bin" ∈ (ClassifyFilesBySize (fun _ => some smallLimit) ["a.bin"]).Medium := by
  decide

/-- Claim C3, amended: the tiers form a total partition of the classified
file set, and a file exactly at a threshold is deterministically assigned
to the HIGHER of the two adjacent tiers (the threshold is an exclusive
upper bound of the lower tier); likewise in the inline subrepo
classifier. -/
theorem classifier_partition (stat : String → Option Int) (files : List String)
    (f : String) :
    List.Perm
      ((ClassifyFilesBySize stat files).Small
        ++ (ClassifyFilesBySize stat files).Medium
        ++ (ClassifyFilesBySize stat files).Large)
      files
    ∧ (f ∈ files → stat f = some smallLimit →
        f ∈ (ClassifyFilesBySize stat files).Medium
        ∧ f ∉ (ClassifyFilesBySize stat files).Small)
    ∧ (f ∈ files → stat f = some mediumLimit →
        f ∈ (ClassifyFilesBySize stat files).Large
        ∧ f ∉ (ClassifyFilesBySize stat files).Medium)
    ∧ (∀ sT mT : Int, sT < mT → f ∈ files → stat f = some sT →
        f ∈ (classifySubrepoFiles stat sT mT files).2.1) := by
  refine ⟨classify_perm stat files, ?_, ?_, ?_⟩
  · intro hf hs
    refine ⟨classify_mem_medium_of hf hs (lt_irrefl _) (by decide), ?_⟩
    intro hmem
    rcases mem_classify_small hmem with hnone | ⟨sz, hsz, hlt⟩
    · rw [hs] at hnone
      cases hnone
    · rw [hs] at hsz
      have hss : smallLimit = sz := Option.some.inj hsz
      subst hss
      exact absurd hlt (lt_irrefl _)
  · intro hf hs
    refine ⟨classify_mem_large_of hf hs (lt_irrefl _), ?_⟩
    intro hmem
    rcases mem_classify_medium hmem with ⟨sz, hsz, hge, hlt⟩
    rw [hs] at hsz
    have hms : mediumLimit = sz := Option.some.inj hsz
    subst hms
    exact absurd hlt (lt_irrefl _)
  · intro sT mT hst hf hs
    exact subrepo_mem_medium_of hf hs (lt_irrefl _) hst

/-- Stat environment used by the C3 witness: "a" sits exactly at the
small/medium boundary, everything else exactly at the medium/large
boundary. -/
def statW : String → Option Int :=
  fun f => if f = "a" then some smallLimit else some mediumLimit

/-- Witness for the amended C3 at concrete boundary sizes. -/
theorem classifier_partition_witness :
    "a" ∈ (ClassifyFilesBySize statW ["a", "b"]).Medium
    ∧ "b" ∈ (ClassifyFilesBySize statW ["a", "b"]).Large
    ∧ "a" ∈ (classifySubrepoFiles statW smallLimit mediumLimit ["a", "b"]).2.1 := by
  refine ⟨((classifier_partition statW ["a", "b"] "a").2.1 (by decide)
      (by decide)).1,
    ((classifier_partition statW ["a", "b"] "b").2.2.1 (by decide)
      (by decide)).1,
    (classifier_partition statW ["a", "b"] "a").2.2.2 smallLimit mediumLimit
      (by decide) (by decide) (by decide)⟩

/-- Claim C9, counterexample: a path whose stat fails is NOT excluded from
the classification by `ClassifyFilesBySize`: it is placed in the small
tier. -/
theorem classifier_stat_failure_counterexample :
    "x" ∈ (ClassifyFilesBySize (fun _ => none) ["x"]).Small := by
  decide

/-- Claim C9, amended: in `ClassifyFilesBySize` a stat-failing path is
assigned to the small tier (never medium or large), while the inline
classifier of `processSpecialRepoFastAndSafe` silently excludes it from
all three tiers; in neither case is the failure reported as an error (the
return types carry no error channel). -/
theorem classifier_stat_failure (stat : String → Option Int)
    (files : List String) (f : String) (sT mT : Int) (hs : stat f = none) :
    (f ∈ files → f ∈ (ClassifyFilesBySize stat files).Small)
    ∧ f ∉ (ClassifyFilesBySize stat files).Medium
    ∧ f ∉ (ClassifyFilesBySize stat files).Large
    ∧ f ∉ (classifySubrepoFiles stat sT mT files).1
    ∧ f ∉ (classifySubrepoFiles stat sT mT files).2.1
    ∧ f ∉ (classifySubrepoFiles stat sT mT files).2.2 := by
  refine ⟨fun hf => classify_mem_small_of_none hf hs, ?_, ?_, ?_, ?_, ?_⟩
  · intro h
    rcases mem_classify_medium h with ⟨sz, hsz, _⟩
    rw [hs] at hsz
    cases hsz
  · intro h
    rcases mem_classify_large h with ⟨sz, hsz, _⟩
    rw [hs] at hsz
    cases hsz
  · intro h
    rcases subrepo_mem_stat (Or.inl h) with ⟨sz, hsz⟩
    rw [hs] at hsz
    cases hsz
  · intro h
    rcases subrepo_mem_stat (Or.inr (Or.inl h)) with ⟨sz, hsz⟩
    rw [hs] at hsz
    cases hsz
  · intro h
    rcases subrepo_mem_stat (Or.inr (Or.inr h)) with ⟨sz, hsz⟩
    rw [hs] at hsz
    cases hsz

/-- Witness for the amended C9 with an always-failing stat. -/
theorem classifier_stat_failure_witness :
    "y" ∈ (ClassifyFilesBySize (fun _ => none) ["y"]).Small
    ∧ "y" ∉ (classifySubrepoFiles (fun _ => none) 5 100 ["y"]).1 := by
  refine ⟨(classifier_stat_failure (fun _ => none) ["y"] "y" 5 100 rfl).1
      (by decide),
    (classifier_stat_failure (fun _ => none) ["y"] "y" 5 100 rfl).2.2.2.1⟩

/-- Claim C8: a failed batch call is retried with delay
`baseDelay * 2 ^ attempt` only on lock contention; any other failure ends
the batch immediately with no retry; and the batch loop attempts every
batch, aggregating processed counts across them regardless of individual
failures. -/
theorem batchExecutor_retry_and_aggregation (env : Nat → Nat → ExecResult)
    (res : Nat → ExecResult) (op : String) (mr bd b i r : Nat)
    (batch : List String) (rest : List (List String)) :
    (res i = .otherErr → egcLoop res bd i (r + 1) = (false, []))
    ∧ (res i = .lockErr →
        egcLoop res bd i (r + 1)
          = ((egcLoop res bd (i + 1) r).1,
             bd * 2 ^ i :: (egcLoop res bd (i + 1) r).2))
    ∧ ((processBatches env op mr bd b (batch :: rest)).1
        = (if (executeGitCommandWithRetry (env b) op mr bd).1
            then batch.length else 0)
          + (processBatches env op mr bd (b + 1) rest).1)
    ∧ (∀ batches bi, (processBatches env op mr bd bi batches).2
        = batches.length) := by
  refine ⟨?_, ?_, ?_, ?_⟩
  · intro h
    simp [egcLoop, h]
  · intro h
    simp [egcLoop, h]
  · cases hok : (executeGitCommandWithRetry (env b) op mr bd).1 <;>
      simp [processBatches, hok]
  · intro batches
    induction batches with
    | nil =>
      intro bi
      rfl
    | cons hd tl ih =>
      intro bi
      simp only [processBatches, List.length_cons]
      rw [ih (bi + 1)]

/-- Witness for C8 at concrete environments and batch lists. -/
theorem batchExecutor_retry_witness :
    egcLoop (fun _ => ExecResult.otherErr) 1 0 3 = (false, [])
    ∧ egcLoop (fun _ => ExecResult.lockErr) 1 0 3
      = ((egcLoop (fun _ => ExecResult.lockErr) 1 1 2).1,
         1 * 2 ^ 0 :: (egcLoop (fun _ => ExecResult.lockErr) 1 1 2).2)
    ∧ (processBatches (fun _ _ => ExecResult.ok) "add" 3 1 0 [["f1"], ["f2"]]).2
      = [["f1"], ["f2"]].length := by
  refine ⟨(batchExecutor_retry_and_aggregation (fun _ _ => ExecResult.ok)
      (fun _ => ExecResult.otherErr) "add" 3 1 0 0 2 [] []).1 rfl,
    (batchExecutor_retry_and_aggregation (fun _ _ => ExecResult.ok)
      (fun _ => ExecResult.lockErr) "add" 3 1 0 0 2 [] []).2.1 rfl,
    (batchExecutor_retry_and_aggregation (fun _ _ => ExecResult.ok)
      (fun _ => ExecResult.ok) "add" 3 1 0 0 0 [] []).2.2.2
      [["f1"], ["f2"]] 0⟩

/-- Every branch of the index-update loop that exhausts its attempts or
hits a non-retryable error yields a non-nil error; `none` requires some
bulk call to have succeeded. -/
lemma buiLoop_ne_none (env : IndexEnv) (maxAge : Int)
    (h : ∀ i, env.cmd i ≠ .ok) :
    ∀ r att delay, (buiLoop env maxAge att r delay).1 ≠ none := by
  intro r
  induction r with
  | zero =>
    intro att delay
    simp [buiLoop]
  | succ r ih =>
    intro att delay
    rcases hl : env.lock att with _ | age
    · rcases hc : env.cmd att with _ | _ | _
      · exact absurd hc (h att)
      · rcases Nat.eq_zero_or_pos r with hr | hr
        · subst hr
          simp [buiLoop, hl, hc]
        · simp only [buiLoop, hl, hc, if_pos hr]
          simpa using ih (att + 1) (delay * 2)
      · simp [buiLoop, hl, hc]
    · by_cases hage : maxAge < age
      · rcases hc : env.cmd att with _ | _ | _
        · exact absurd hc (h att)
        · rcases Nat.eq_zero_or_pos r with hr | hr
          · subst hr
            simp [buiLoop, hl, hage, hc]
          · simp only [buiLoop, hl, hage, if_pos hr, hc]
            simpa [hage] using ih (att + 1) (delay * 2)
        · simp [buiLoop, hl, hage, hc]
      · simp only [buiLoop, hl]
        simpa [hage] using ih (att + 1) delay

/-- Recognizer for bulk index-update call events. -/
def isBulkCall : IndexEvent → Bool
  | .bulkCall _ => true
  | _ => false

/-- The loop issues at most `remaining` bulk calls. -/
lemma buiLoop_bulkCall_bound (env : IndexEnv) (maxAge : Int) :
    ∀ r att delay,
      ((buiLoop env maxAge att r delay).2.countP isBulkCall) ≤ r := by
  intro r
  induction r with
  | zero =>
    intro att delay
    simp [buiLoop]
  | succ r ih =>
    intro att delay
    have ih1 := ih (att + 1) (delay * 2)
    have ih2 := ih (att + 1) delay
    rcases hl : env.lock att with _ | age
    · rcases hc : env.cmd att with _ | _ | _
      · simp [buiLoop, hl, hc, List.countP_cons, isBulkCall]
      · rcases Nat.eq_zero_or_pos r with hr | hr
        · subst hr
          simp [buiLoop, hl, hc, List.countP_cons, isBulkCall]
        · simp only [buiLoop, hl, hc, if_pos hr, List.countP_cons,
            List.countP_append, isBulkCall]
          simp [List.countP_cons, isBulkCall]
          omega
      · simp [buiLoop, hl, hc, List.countP_cons, isBulkCall]
    · by_cases hage : maxAge < age
      · rcases hc : env.cmd att with _ | _ | _
        · simp [buiLoop, hl, hage, hc, List.countP_cons, isBulkCall]
        · rcases Nat.eq_zero_or_pos r with hr | hr
          · subst hr
            simp [buiLoop, hl, hage, hc, List.countP_cons, isBulkCall]
          · simp only [buiLoop, hl, hage, hc, if_pos hr, List.countP_cons,
              List.countP_append, isBulkCall]
            simp [List.countP_cons, isBulkCall]
            omega
        · simp [buiLoop, hl, hage, hc, List.countP_cons, isBulkCall]
      · simp [buiLoop, hl, hage, List.countP_cons, isBulkCall]
        omega

/-- Claim C7: a bulk-call failure whose text indicates lock contention is
retried with a doubling delay up to the bounded attempts (never more than
the configured maximum of bulk calls); any other failure returns
immediately; and when no bulk call ever succeeds the returned error is
non-nil. -/
theorem indexMutator_retry (env : IndexEnv) (maxAge : Int)
    (att r delay : Nat) :
    (env.lock att = .absent → env.cmd att = .otherErr →
      buiLoop env maxAge att (r + 1) delay
        = (some "git update-index --index-info failed",
           [IndexEvent.bulkCall att]))
    ∧ (env.lock att = .absent → env.cmd att = .lockErr →
      buiLoop env maxAge att (r + 2) delay
        = ((buiLoop env maxAge (att + 1) (r + 1) (delay * 2)).1,
           IndexEvent.bulkCall att :: IndexEvent.sleep delay
             :: (buiLoop env maxAge (att + 1) (r + 1) (delay * 2)).2))
    ∧ (env.lock att = .absent → env.cmd att = .lockErr →
      buiLoop env maxAge att 1 delay
        = (some "git update-index --index-info failed",
           [IndexEvent.bulkCall att]))
    ∧ ((∀ i, env.cmd i ≠ .ok) → ∀ mr d0,
        (batchUpdateIndex env mr maxAge d0).1 ≠ none)
    ∧ (∀ mr d0,
        ((batchUpdateIndex env mr maxAge d0).2.countP isBulkCall) ≤ mr) := by
  refine ⟨?_, ?_, ?_, ?_, ?_⟩
  · intro hl hc
    simp [buiLoop, hl, hc]
  · intro hl hc
    simp [buiLoop, hl, hc]
  · intro hl hc
    simp [buiLoop, hl, hc]
  · intro h mr d0
    exact buiLoop_ne_none env maxAge h mr 1 d0
  · intro mr d0
    exact buiLoop_bulkCall_bound env maxAge mr 1 d0

/-- Environment for the C7 witness: the lock marker never exists, the bulk
call always fails without lock contention. -/
def c7Env : IndexEnv :=
  { lock := fun _ => LockState.absent, cmd := fun _ => ExecResult.otherErr }

/-- Witness for C7 at a concrete environment. -/
theorem indexMutator_retry_witness :
    buiLoop c7Env 60 1 3 2
      = (some "git update-index --index-info failed", [IndexEvent.bulkCall 1])
    ∧ (batchUpdateIndex c7Env 5 60 2).1 ≠ none
    ∧ ((batchUpdateIndex c7Env 5 60 2).2.countP isBulkCall) ≤ 5 := by
  exact ⟨(indexMutator_retry c7Env 60 1 2 2).1 rfl rfl,
    (indexMutator_retry c7Env 60 1 0 2).2.2.2.1 (fun i => by simp [c7Env]) 5 2,
    (indexMutator_retry c7Env 60 1 0 2).2.2.2.2 5 2⟩

/-- Environment for the C2 counterexample: a young lock marker (age 5
against threshold 60) at Go attempt 1, no marker afterwards, a bulk call
that always succeeds. -/
def c2Env : IndexEnv :=
  { lock := fun a => if a = 1 then LockState.present 5 else LockState.absent,
    cmd := fun _ => ExecResult.ok }

/-- Claim C2, counterexample: waiting on a young lock marker consumes one
of the bounded retry attempts.  With one configured attempt the operation
fails having never issued the bulk call, although from the second
iteration on the marker is gone and the call would succeed; with two
configured attempts the identical environment succeeds, issuing the bulk
call at Go attempt 2 — the wait used up an attempt. -/
theorem indexMutator_lock_wait_counterexample :
    batchUpdateIndex c2Env 1 60 2
      = (some "git update-index failed after retries", [IndexEvent.sleep 2])
    ∧ batchUpdateIndex c2Env 2 60 2
      = (none, [IndexEvent.sleep 2, IndexEvent.bulkCall 2]) := by
  decide

/-- Claim C2, amended: a marker older than the threshold is deleted and
the bulk call proceeds within that same attempt; a younger marker is not
deleted and the operation sleeps and retries, but the retry consumes one
of the bounded attempts (the loop continues with the next attempt number
and one fewer attempt remaining, at an unchanged delay). -/
theorem indexMutator_lock_marker (env : IndexEnv) (maxAge : Int)
    (att r delay : Nat) (age : Int) :
    (env.lock att = .present age → maxAge < age →
      ∃ res rest, buiLoop env maxAge att (r + 1) delay
        = (res, IndexEvent.removeLock att :: IndexEvent.bulkCall att :: rest))
    ∧ (env.lock att = .present age → ¬ maxAge < age →
      buiLoop env maxAge att (r + 1) delay
        = ((buiLoop env maxAge (att + 1) r delay).1,
           IndexEvent.sleep delay :: (buiLoop env maxAge (att + 1) r delay).2)) := by
  constructor
  · intro hl hage
    rcases hc : env.cmd att with _ | _ | _
    · exact ⟨none, [], by simp [buiLoop, hl, hage, hc]⟩
    · rcases Nat.eq_zero_or_pos r with hr | hr
      · subst hr
        exact ⟨some "git update-index --index-info failed", [],
          by simp [buiLoop, hl, hage, hc]⟩
      · refine ⟨(buiLoop env maxAge (att + 1) r (delay * 2)).1,
          IndexEvent.sleep delay :: (buiLoop env maxAge (att + 1) r (delay * 2)).2,
          ?_⟩
        simp [buiLoop, hl, hage, hc, if_pos hr]
    · exact ⟨some "git update-index --index-info failed", [],
        by simp [buiLoop, hl, hage, hc]⟩
  · intro hl hage
    simp [buiLoop, hl, hage]

/-- Environment for the C2 witness: a stale lock marker (age 120 against
threshold 60) at every attempt, succeeding bulk call. -/
def c2StaleEnv : IndexEnv :=
  { lock := fun _ => LockState.present 120, cmd := fun _ => ExecResult.ok }

/-- Witness for the amended C2 at concrete environments. -/
theorem indexMutator_lock_marker_witness :
    (∃ res rest, buiLoop c2StaleEnv 60 1 3 2
      = (res, IndexEvent.removeLock 1 :: IndexEvent.bulkCall 1 :: rest))
    ∧ buiLoop c2Env 60 1 1 2
      = ((buiLoop c2Env 60 2 0 2).1,
         IndexEvent.sleep 2 :: (buiLoop c2Env 60 2 0 2).2) := by
  exact ⟨(indexMutator_lock_marker c2StaleEnv 60 1 2 2 120).1 rfl (by decide),
    (indexMutator_lock_marker c2Env 60 1 0 2 5).2 (by decide) (by decide)⟩

/-- Actions emitted for one conflicted file: only its own checkout/add,
and only when it matches a lock-file pattern. -/
lemma mem_resolveOne {a : GitAction} {env : MergeEnv} {f : String}
    (h : a ∈ resolveOne env f) :
    isLockFile f = true ∧ (a = .checkoutTheirs f ∨ a = .add f) := by
  unfold resolveOne at h
  split_ifs at h with h1 h2 <;> simp_all

/-- Actions emitted by the whole conflict-resolution loop. -/
lemma mem_resolveFlatten {a : GitAction} {env : MergeEnv}
    (h : a ∈ (env.conflictFiles.map (resolveOne env)).flatten) :
    ∃ f, f ∈ env.conflictFiles ∧ isLockFile f = true
      ∧ (a = .checkoutTheirs f ∨ a = .add f) := by
  rcases List.mem_flatten.mp h with ⟨l, hl, hal⟩
  rcases List.mem_map.mp hl with ⟨f, hf, rfl⟩
  rcases mem_resolveOne hal with ⟨h1, h2⟩
  exact ⟨f, hf, h1, h2⟩

/-- Vocabulary of `SafeRollback` actions. -/
lemma mem_SafeRollback {a : GitAction} {env : MergeEnv}
    (h : a ∈ (SafeRollback env).2) :
    a = .mergeAbort ∨ a = .resetSoftHead ∨ a = .resetHardBackup
    ∨ a = .resetHardHead ∨ a = .forcePush := by
  unfold SafeRollback rollbackStrategy at h
  split_ifs at h <;> simp at h <;> tauto

/-- `SafeRollback` always attempts the merge abort. -/
lemma safeRollback_mergeAbort (env : MergeEnv) :
    GitAction.mergeAbort ∈ (SafeRollback env).2 := by
  unfold SafeRollback rollbackStrategy
  split_ifs <;> simp

/-- A failed merge abort is followed by the soft reset to HEAD. -/
lemma safeRollback_resetSoft (env : MergeEnv) (h : env.mergeAbortOk = false) :
    GitAction.resetSoftHead ∈ (SafeRollback env).2 := by
  unfold SafeRollback rollbackStrategy
  split_ifs <;> simp_all

/-- `SafeRollback` always attempts the hard reset to the backup branch. -/
lemma safeRollback_resetHardBackup (env : MergeEnv) :
    GitAction.resetHardBackup ∈ (SafeRollback env).2 := by
  unfold SafeRollback rollbackStrategy
  split_ifs <;> simp

/-- A failed hard reset to the backup is followed by the last-resort hard
reset to HEAD. -/
lemma safeRollback_resetHardHead (env : MergeEnv)
    (h : env.resetHardBackupOk = false) :
    GitAction.resetHardHead ∈ (SafeRollback env).2 := by
  unfold SafeRollback rollbackStrategy
  split_ifs <;> simp_all

/-- When either hard reset succeeds and the strategy is not force-push,
`SafeRollback` reports no error. -/
lemma safeRollback_ok (env : MergeEnv)
    (hb : env.resetHardBackupOk = true ∨ env.resetHardHeadOk = true)
    (hs : env.strategy ≠ "force-push") :
    (SafeRollback env).1 = none := by
  unfold SafeRollback rollbackStrategy
  split_ifs <;> simp_all

/-- Action list of `handleConflicts` when listing the conflicts
succeeded: the accumulated prefix, then the conflict-loop actions, then
one of five explicit tails. -/
lemma handleConflicts_prefix (env : MergeEnv) (acc : List GitAction)
    (h1 : env.conflictFilesErr = false) :
    ∃ tail, (handleConflicts env acc).2
      = acc ++ (env.conflictFiles.map (resolveOne env)).flatten ++ tail
      ∧ (tail = []
        ∨ tail = [GitAction.commitMerge, GitAction.push, GitAction.deleteBranch]
        ∨ tail = [GitAction.commitMerge, GitAction.push]
        ∨ tail = [GitAction.commitMerge]
        ∨ tail = (SafeRollback env).2) := by
  by_cases h2 : env.remainingErr = true
  · exact ⟨[], by simp [handleConflicts, h1, h2], Or.inl rfl⟩
  · by_cases h3 : env.remainingConflicts.isEmpty = true
    · by_cases h4 : env.commitMergeOk = true
      · by_cases h5 : env.pushOk = true
        · exact ⟨[GitAction.commitMerge, GitAction.push, GitAction.deleteBranch],
            by simp [handleConflicts, h1, h2, h3, h4, h5], by simp⟩
        · exact ⟨[GitAction.commitMerge, GitAction.push],
            by simp [handleConflicts, h1, h2, h3, h4, h5], by simp⟩
      · exact ⟨[GitAction.commitMerge],
          by simp [handleConflicts, h1, h2, h3, h4], by simp⟩
    · rcases hsr : SafeRollback env with ⟨e, racts⟩
      cases e
      · exact ⟨racts, by simp [handleConflicts, h1, h2, h3, hsr],
          by simp [hsr]⟩
      · exact ⟨racts, by simp [handleConflicts, h1, h2, h3, hsr],
          by simp [hsr]⟩

/-- The accumulated action prefix survives `handleConflicts`. -/
lemma handleConflicts_mono {a : GitAction} (env : MergeEnv)
    (acc : List GitAction) (h : a ∈ acc) :
    a ∈ (handleConflicts env acc).2 := by
  by_cases h1 : env.conflictFilesErr = true
  · have hacc : (handleConflicts env acc).2 = acc := by
      simp [handleConflicts, h1]
    rw [hacc]
    exact h
  · rcases handleConflicts_prefix env acc (by simpa using h1) with ⟨tail, heq, _⟩
    rw [heq]
    exact List.mem_append_left _ (List.mem_append_left _ h)

/-- Vocabulary of `handleConflicts` actions beyond the accumulated
prefix. -/
lemma mem_handleConflicts {a : GitAction} {env : MergeEnv}
    {acc : List GitAction} (h : a ∈ (handleConflicts env acc).2) :
    a ∈ acc
    ∨ (∃ f, f ∈ env.conflictFiles ∧ isLockFile f = true
        ∧ (a = .checkoutTheirs f ∨ a = .add f))
    ∨ a = .commitMerge ∨ a = .push ∨ a = .deleteBranch
    ∨ a = .mergeAbort ∨ a = .resetSoftHead ∨ a = .resetHardBackup
    ∨ a = .resetHardHead ∨ a = .forcePush := by
  by_cases h1 : env.conflictFilesErr = true
  · left
    have hacc : (handleConflicts env acc).2 = acc := by
      simp [handleConflicts, h1]
    rwa [hacc] at h
  · rcases handleConflicts_prefix env acc (by simpa using h1) with
      ⟨tail, heq, htail⟩
    rw [heq] at h
    rcases List.mem_append.mp h with h | htl
    · rcases List.mem_append.mp h with h | hfl
      · exact Or.inl h
      · exact Or.inr (Or.inl (mem_resolveFlatten hfl))
    · rcases htail with rfl | rfl | rfl | rfl | rfl
      · cases htl
      · simp at htl
        tauto
      · simp at htl
        tauto
      · simp at htl
        tauto
      · rcases mem_SafeRollback htl with h | h | h | h | h <;> tauto

/-- Result and rollback actions of `handleConflicts` when conflicts
remain after auto-resolution. -/
lemma handleConflicts_rollback_result (env : MergeEnv) (acc : List GitAction)
    (h1 : env.conflictFilesErr = false) (h2 : env.remainingErr = false)
    (h3 : env.remainingConflicts ≠ []) :
    (handleConflicts env acc).1 ≠ none
    ∧ ((SafeRollback env).1 = none →
        (handleConflicts env acc).1
          = some "merge conflicts require manual resolution")
    ∧ ∀ b, b ∈ (SafeRollback env).2 → b ∈ (handleConflicts env acc).2 := by
  have hemp : env.remainingConflicts.isEmpty = false := by
    cases hl : env.remainingConflicts
    · exact absurd hl h3
    · rfl
  rcases hsr : SafeRollback env with ⟨e, racts⟩
  cases e with
  | none =>
    refine ⟨?_, ?_, ?_⟩
    · simp [handleConflicts, h1, h2, hemp, hsr]
    · intro _
      simp [handleConflicts, h1, h2, hemp, hsr]
    · intro b hb
      have hacts : (handleConflicts env acc).2
          = acc ++ (env.conflictFiles.map (resolveOne env)).flatten ++ racts := by
        simp [handleConflicts, h1, h2, hemp, hsr]
      rw [hacts]
      exact List.mem_append_right _ hb
  | some s =>
    refine ⟨?_, ?_, ?_⟩
    · simp [handleConflicts, h1, h2, hemp, hsr]
    · intro hno
      simp at hno
    · intro b hb
      have hacts : (handleConflicts env acc).2
          = acc ++ (env.conflictFiles.map (resolveOne env)).flatten ++ racts := by
        simp [handleConflicts, h1, h2, hemp, hsr]
      rw [hacts]
      exact List.mem_append_right _ hb

/-- The diverged path always creates the backup branch. -/
lemma createBranch_mem_divergedMerge (env : MergeEnv) (acc : List GitAction) :
    GitAction.createBranch ∈ (divergedMerge env acc).2 := by
  unfold divergedMerge
  split_ifs with hcb hm hp
  · simp
  · simp
  · exact handleConflicts_mono env _ (by simp)
  · simp

/-- Vocabulary of `divergedMerge` actions beyond the accumulated prefix:
in particular, no pull is ever issued on the diverged path. -/
lemma mem_divergedMerge {a : GitAction} {env : MergeEnv}
    {acc : List GitAction} (h : a ∈ (divergedMerge env acc).2) :
    a ∈ acc
    ∨ (∃ f, f ∈ env.conflictFiles ∧ isLockFile f = true
        ∧ (a = .checkoutTheirs f ∨ a = .add f))
    ∨ a = .createBranch ∨ a = .mergeAttempt ∨ a = .push ∨ a = .deleteBranch
    ∨ a = .commitMerge ∨ a = .mergeAbort ∨ a = .resetSoftHead
    ∨ a = .resetHardBackup ∨ a = .resetHardHead ∨ a = .forcePush := by
  unfold divergedMerge at h
  split_ifs at h with hcb hm hp
  · simp at h
    tauto
  · simp at h
    tauto
  · rcases mem_handleConflicts h with h | h | h | h | h | h | h | h | h | h
    · simp at h
      tauto
    · exact Or.inr (Or.inl h)
    all_goals tauto
  · simp at h
    tauto

/-- Claim C1: the divergence classifier checks local==remote, then
local==base, then remote==base, first match winning: Same performs no
pull, push or merge; Behind performs only the fast-forward pull; Ahead
performs only the push and never a pull; otherwise the diverged
three-way-merge path runs (beginning with the backup branch) and never
pulls.  In particular local==remote==base is Same, never Behind. -/
theorem merge_state_machine (env : MergeEnv) (hrev : env.revOk = true) :
    (env.localRev = env.remoteRev →
      classifyBranch env.localRev env.remoteRev env.baseRev = .same
      ∧ (SmartThreeWayMerge env).1 = none
      ∧ GitAction.pull ∉ (SmartThreeWayMerge env).2
      ∧ GitAction.push ∉ (SmartThreeWayMerge env).2
      ∧ GitAction.mergeAttempt ∉ (SmartThreeWayMerge env).2)
    ∧ (env.localRev ≠ env.remoteRev → env.localRev = env.baseRev →
      classifyBranch env.localRev env.remoteRev env.baseRev = .behind
      ∧ GitAction.pull ∈ (SmartThreeWayMerge env).2
      ∧ GitAction.push ∉ (SmartThreeWayMerge env).2
      ∧ GitAction.mergeAttempt ∉ (SmartThreeWayMerge env).2)
    ∧ (env.localRev ≠ env.remoteRev → env.localRev ≠ env.baseRev →
        env.remoteRev = env.baseRev →
      classifyBranch env.localRev env.remoteRev env.baseRev = .ahead
      ∧ GitAction.push ∈ (SmartThreeWayMerge env).2
      ∧ GitAction.pull ∉ (SmartThreeWayMerge env).2
      ∧ GitAction.mergeAttempt ∉ (SmartThreeWayMerge env).2)
    ∧ (env.localRev ≠ env.remoteRev → env.localRev ≠ env.baseRev →
        env.remoteRev ≠ env.baseRev →
      classifyBranch env.localRev env.remoteRev env.baseRev = .diverged
      ∧ GitAction.createBranch ∈ (SmartThreeWayMerge env).2
      ∧ GitAction.pull ∉ (SmartThreeWayMerge env).2) := by
  refine ⟨?_, ?_, ?_, ?_⟩
  · intro h
    refine ⟨by simp [classifyBranch, h], ?_, ?_, ?_, ?_⟩
    · simp [SmartThreeWayMerge, hrev, h]
    · cases hst : env.hasStaged <;> simp [SmartThreeWayMerge, hrev, h, hst]
    · cases hst : env.hasStaged <;> simp [SmartThreeWayMerge, hrev, h, hst]
    · cases hst : env.hasStaged <;> simp [SmartThreeWayMerge, hrev, h, hst]
  · intro h1 h2
    have hbr : ¬ env.baseRev = env.remoteRev := by
      rw [← h2]
      exact h1
    refine ⟨by simp [classifyBranch, h1, h2, hbr], ?_, ?_, ?_⟩ <;>
      cases hp : env.pullOk <;> cases hst : env.hasStaged <;>
        simp [SmartThreeWayMerge, hrev, h1, h2, hbr, hp, hst]
  · intro h1 h2 h3
    refine ⟨by simp [classifyBranch, h1, h2, h3], ?_, ?_, ?_⟩ <;>
      cases hp : env.pushOk <;> cases hst : env.hasStaged <;>
        simp [SmartThreeWayMerge, hrev, h1, h2, h3, hp, hst]
  · intro h1 h2 h3
    have hred : SmartThreeWayMerge env
        = divergedMerge env
            (if env.hasStaged then [GitAction.commitStaged] else []) := by
      simp [SmartThreeWayMerge, hrev, h1, h2, h3]
    refine ⟨by simp [classifyBranch, h1, h2, h3], ?_, ?_⟩
    · rw [hred]
      exact createBranch_mem_divergedMerge env _
    · rw [hred]
      intro hmem
      rcases mem_divergedMerge hmem with
        h | ⟨f, hf1, hf2, h | h⟩ | h | h | h | h | h | h | h | h | h | h
      · cases hst : env.hasStaged <;> simp [hst] at h
      all_goals simp at h

/-- Claim C6: after a successful automatic merge of a diverged state, a
push failure is surfaced without any rollback action and without deleting
the backup branch; a successful push is followed by the backup-branch
deletion and a nil result. -/
theorem merge_push_failure (env : MergeEnv) (hrev : env.revOk = true)
    (h1 : env.localRev ≠ env.remoteRev) (h2 : env.localRev ≠ env.baseRev)
    (h3 : env.remoteRev ≠ env.baseRev) (hcb : env.createBranchOk = true)
    (hm : env.mergeOk = true) :
    (env.pushOk = false →
      (SmartThreeWayMerge env).1 = some "push failed"
      ∧ GitAction.deleteBranch ∉ (SmartThreeWayMerge env).2
      ∧ GitAction.mergeAbort ∉ (SmartThreeWayMerge env).2
      ∧ GitAction.resetSoftHead ∉ (SmartThreeWayMerge env).2
      ∧ GitAction.resetHardBackup ∉ (SmartThreeWayMerge env).2
      ∧ GitAction.resetHardHead ∉ (SmartThreeWayMerge env).2
      ∧ GitAction.forcePush ∉ (SmartThreeWayMerge env).2)
    ∧ (env.pushOk = true →
      (SmartThreeWayMerge env).1 = none
      ∧ GitAction.deleteBranch ∈ (SmartThreeWayMerge env).2) := by
  constructor
  · intro hp
    refine ⟨?_, ?_, ?_, ?_, ?_, ?_, ?_⟩ <;>
      cases hst : env.hasStaged <;>
        simp [SmartThreeWayMerge, divergedMerge, hrev, h1, h2, h3, hcb, hm,
          hp, hst]
  · intro hp
    refine ⟨?_, ?_⟩ <;>
      cases hst : env.hasStaged <;>
        simp [SmartThreeWayMerge, divergedMerge, hrev, h1, h2, h3, hcb, hm,
          hp, hst]

/-- Claim C5: in a diverged merge that hits conflicts, every conflicted
file matching a lock-file pattern is checked out from the remote side and
staged, non-matching files get no such action; and when conflicts remain
after auto-resolution the rollback sequence runs (merge-abort always; the
soft reset after a failed abort; the hard reset to the backup always; the
last-resort hard reset after a failed backup reset) and the call returns a
non-nil error — exactly the irreconcilable-conflict error whenever
`SafeRollback` itself reports none. -/
theorem merge_conflict_resolution (env : MergeEnv) (hrev : env.revOk = true)
    (h1 : env.localRev ≠ env.remoteRev) (h2 : env.localRev ≠ env.baseRev)
    (h3 : env.remoteRev ≠ env.baseRev) (hcb : env.createBranchOk = true)
    (hm : env.mergeOk = false) (hcf : env.conflictFilesErr = false)
    (hre : env.remainingErr = false) :
    (∀ f, f ∈ env.conflictFiles → isLockFile f = true →
        env.checkoutTheirsOk f = true →
        GitAction.checkoutTheirs f ∈ (SmartThreeWayMerge env).2
        ∧ GitAction.add f ∈ (SmartThreeWayMerge env).2)
    ∧ (∀ f, isLockFile f = false →
        GitAction.checkoutTheirs f ∉ (SmartThreeWayMerge env).2
        ∧ GitAction.add f ∉ (SmartThreeWayMerge env).2)
    ∧ (env.remainingConflicts ≠ [] →
        GitAction.mergeAbort ∈ (SmartThreeWayMerge env).2
        ∧ GitAction.resetHardBackup ∈ (SmartThreeWayMerge env).2
        ∧ (env.mergeAbortOk = false →
            GitAction.resetSoftHead ∈ (SmartThreeWayMerge env).2)
        ∧ (env.resetHardBackupOk = false →
            GitAction.resetHardHead ∈ (SmartThreeWayMerge env).2)
        ∧ (SmartThreeWayMerge env).1 ≠ none
        ∧ ((SafeRollback env).1 = none →
            (SmartThreeWayMerge env).1
              = some "merge conflicts require manual resolution")) := by
  have hred : SmartThreeWayMerge env
      = handleConflicts env
          ((if env.hasStaged then [GitAction.commitStaged] else [])
            ++ [GitAction.createBranch, GitAction.mergeAttempt]) := by
    cases hst : env.hasStaged <;>
      simp [SmartThreeWayMerge, divergedMerge, hrev, h1, h2, h3, hcb, hm, hst]
  rw [hred]
  refine ⟨?_, ?_, ?_⟩
  · intro f hf hlock hok
    rcases handleConflicts_prefix env _ hcf with ⟨tail, heq, _⟩
    rw [heq]
    have hct : GitAction.checkoutTheirs f
        ∈ (env.conflictFiles.map (resolveOne env)).flatten :=
      List.mem_flatten.mpr ⟨resolveOne env f, List.mem_map.mpr ⟨f, hf, rfl⟩,
        by simp [resolveOne, hlock, hok]⟩
    have had : GitAction.add f
        ∈ (env.conflictFiles.map (resolveOne env)).flatten :=
      List.mem_flatten.mpr ⟨resolveOne env f, List.mem_map.mpr ⟨f, hf, rfl⟩,
        by simp [resolveOne, hlock, hok]⟩
    exact ⟨List.mem_append_left _ (List.mem_append_right _ hct),
      List.mem_append_left _ (List.mem_append_right _ had)⟩
  · intro f hlock
    constructor
    · intro hmem
      rcases mem_handleConflicts hmem with
        h | ⟨g, hg1, hg2, h | h⟩ | h | h | h | h | h | h | h | h
      · cases hst : env.hasStaged <;> simp [hst] at h
      · injection h with hfg
        subst hfg
        rw [hlock] at hg2
        simp at hg2
      all_goals simp at h
    · intro hmem
      rcases mem_handleConflicts hmem with
        h | ⟨g, hg1, hg2, h | h⟩ | h | h | h | h | h | h | h | h
      · cases hst : env.hasStaged <;> simp [hst] at h
      · simp at h
      · injection h with hfg
        subst hfg
        rw [hlock] at hg2
        simp at hg2
      all_goals simp at h
  · intro hrc
    rcases handleConflicts_rollback_result env _ hcf hre hrc with
      ⟨hne, hmsg, hmem⟩
    exact ⟨hmem _ (safeRollback_mergeAbort env),
      hmem _ (safeRollback_resetHardBackup env),
      fun hma => hmem _ (safeRollback_resetSoft env hma),
      fun hrb => hmem _ (safeRollback_resetHardHead env hrb),
      hne, hmsg⟩

/-- A fully healthy merge environment with diverged revisions, used as
the base of the concrete witnesses. -/
def mergeEnvBase : MergeEnv :=
  { hasStaged := false, revOk := true, localRev := "l", remoteRev := "r",
    baseRev := "b", pullOk := true, pushOk := true, createBranchOk := true,
    mergeOk := true, conflictFilesErr := false, conflictFiles := [],
    checkoutTheirsOk := fun _ => true, remainingErr := false,
    remainingConflicts := [], commitMergeOk := true, mergeAbortOk := true,
    resetHardBackupOk := true, resetHardHeadOk := true,
    strategy := "rollback", forcePushOk := true }

/-- Witness for C1 at one concrete environment per branch state. -/
theorem merge_state_machine_witness :
    (SmartThreeWayMerge
      { mergeEnvBase with remoteRev := "l", baseRev := "l" }).1 = none
    ∧ GitAction.pull
      ∈ (SmartThreeWayMerge { mergeEnvBase with baseRev := "l" }).2
    ∧ GitAction.push
      ∈ (SmartThreeWayMerge { mergeEnvBase with baseRev := "r" }).2
    ∧ GitAction.createBranch ∈ (SmartThreeWayMerge mergeEnvBase).2 := by
  refine ⟨((merge_state_machine _ rfl).1 rfl).2.1,
    ((merge_state_machine _ rfl).2.1 (by decide) rfl).2.1,
    ((merge_state_machine _ rfl).2.2.1 (by decide) (by decide) rfl).2.1,
    ((merge_state_machine mergeEnvBase rfl).2.2.2 (by decide) (by decide)
      (by decide)).2.1⟩

/-- Witness for C6 at concrete environments. -/
theorem merge_push_failure_witness :
    (SmartThreeWayMerge { mergeEnvBase with pushOk := false }).1
      = some "push failed"
    ∧ GitAction.deleteBranch ∈ (SmartThreeWayMerge mergeEnvBase).2 := by
  exact ⟨((merge_push_failure { mergeEnvBase with pushOk := false } rfl
      (by decide) (by decide) (by decide) rfl rfl).1 rfl).1,
    ((merge_push_failure mergeEnvBase rfl (by decide) (by decide) (by decide)
      rfl rfl).2 rfl).2⟩

/-- Scenario C environment: two lock-file conflicts and one unknown
conflict, which survives auto-resolution. -/
def scenarioCEnv : MergeEnv :=
  { mergeEnvBase with
    mergeOk := false
    conflictFiles := ["package-lock.json", "yarn.lock", "src/main.c"]
    remainingConflicts := ["src/main.c"] }

/-- Witness for C5 on Scenario C. -/
theorem merge_conflict_resolution_witness :
    GitAction.checkoutTheirs "package-lock.json"
      ∈ (SmartThreeWayMerge scenarioCEnv).2
    ∧ GitAction.add "yarn.lock" ∈ (SmartThreeWayMerge scenarioCEnv).2
    ∧ GitAction.checkoutTheirs "src/main.c"
      ∉ (SmartThreeWayMerge scenarioCEnv).2
    ∧ (SmartThreeWayMerge scenarioCEnv).1
      = some "merge conflicts require manual resolution" := by
  have h := merge_conflict_resolution scenarioCEnv rfl (by decide) (by decide)
    (by decide) rfl rfl rfl rfl
  exact ⟨(h.1 "package-lock.json" (by decide) (by decide) rfl).1,
    (h.1 "yarn.lock" (by decide) (by decide) rfl).2,
    (h.2.1 "src/main.c" (by decide)).1,
    (h.2.2 (by decide)).2.2.2.2.2 (by decide)⟩

end GitSync
